import Mathlib

/-!
Shallow embedding of `src/yaml.c` (yaml4yorick): the Yorick binding around
libyaml.  Events, the parser/emitter stack discipline, keyword parsing of
version strings and scalar values are translated into executable Lean
definitions; the surrounding Yorick stack machinery and the libyaml engine
itself are abstracted as explicit parameters (oracles for `fopen`,
`yaml_parser_parse`, `yaml_emitter_emit`, initialization success).
Side effects on event slots (clearing the `init` flag, `yaml_event_delete`)
are recorded as explicit operation traces so that release-exactly-once
properties can be stated.
-/

namespace YamlModel

/-- Source position, mirroring libyaml's `yaml_mark_t` (index, line, column),
as extracted by `extract_mark` in `yaml.c`. -/
structure Mark where
  index : Int
  line : Int
  column : Int
deriving DecidableEq

/-- Payload of a `yaml_event_t`: one case per event kind, carrying exactly the
fields that `extract_event` in `yaml.c` reads for that kind.  Pointer fields
that may be NULL in C (`anchor`, `tag`, `version_directive`) are `Option`. -/
inductive EventData where
  | noEvent
  | streamStart (encoding : Int)
  | streamEnd
  | documentStart (version_directive : Option (Int × Int)) (implicit : Int)
  | documentEnd (implicit : Int)
  | alias (anchor : Option String)
  | scalar (anchor : Option String) (tag : Option String) (value : String)
      (length : Int) (plain_implicit : Int) (quoted_implicit : Int) (style : Int)
  | sequenceStart (anchor : Option String) (tag : Option String)
      (implicit : Int) (style : Int)
  | sequenceEnd
  | mappingStart (anchor : Option String) (tag : Option String)
      (implicit : Int) (style : Int)
  | mappingEnd
deriving DecidableEq

/-- A full `yaml_event_t`: payload plus start and end marks. -/
structure YamlEvent where
  data : EventData
  startMark : Mark
  endMark : Mark
deriving DecidableEq

/-- The zeroed event produced by `push_event` (the object is `calloc`ed, so
the embedded `yaml_event_t` is all zero bytes: type `YAML_NO_EVENT`,
zero marks). -/
def defaultEvent : YamlEvent :=
  ⟨EventData.noEvent, ⟨0, 0, 0⟩, ⟨0, 0, 0⟩⟩

/-- The Yorick `yaml_event` user object `event_t`: a `yaml_event_t` plus the
`init` flag that records whether the contents has been initialized. -/
structure EventObj where
  init : Bool
  event : YamlEvent
deriving DecidableEq

/-- libyaml `yaml_event_type_t` code. -/
def YAML_NO_EVENT : Int := 0

/-- libyaml `yaml_event_type_t` code. -/
def YAML_STREAM_START_EVENT : Int := 1

/-- libyaml `yaml_event_type_t` code. -/
def YAML_STREAM_END_EVENT : Int := 2

/-- libyaml `yaml_event_type_t` code. -/
def YAML_DOCUMENT_START_EVENT : Int := 3

/-- libyaml `yaml_event_type_t` code. -/
def YAML_DOCUMENT_END_EVENT : Int := 4

/-- libyaml `yaml_event_type_t` code. -/
def YAML_ALIAS_EVENT : Int := 5

/-- libyaml `yaml_event_type_t` code. -/
def YAML_SCALAR_EVENT : Int := 6

/-- libyaml `yaml_event_type_t` code. -/
def YAML_SEQUENCE_START_EVENT : Int := 7

/-- libyaml `yaml_event_type_t` code. -/
def YAML_SEQUENCE_END_EVENT : Int := 8

/-- libyaml `yaml_event_type_t` code. -/
def YAML_MAPPING_START_EVENT : Int := 9

/-- libyaml `yaml_event_type_t` code. -/
def YAML_MAPPING_END_EVENT : Int := 10

/-- The `yaml_event_type_t` code stored in the `type` field of a
`yaml_event_t` holding the given payload. -/
def eventTypeCode : EventData → Int
  | EventData.noEvent => YAML_NO_EVENT
  | EventData.streamStart _ => YAML_STREAM_START_EVENT
  | EventData.streamEnd => YAML_STREAM_END_EVENT
  | EventData.documentStart _ _ => YAML_DOCUMENT_START_EVENT
  | EventData.documentEnd _ => YAML_DOCUMENT_END_EVENT
  | EventData.alias _ => YAML_ALIAS_EVENT
  | EventData.scalar _ _ _ _ _ _ _ => YAML_SCALAR_EVENT
  | EventData.sequenceStart _ _ _ _ => YAML_SEQUENCE_START_EVENT
  | EventData.sequenceEnd => YAML_SEQUENCE_END_EVENT
  | EventData.mappingStart _ _ _ _ => YAML_MAPPING_START_EVENT
  | EventData.mappingEnd => YAML_MAPPING_END_EVENT

/-- `get_event_type` in `yaml.c`: yields the event type, always successful;
an uninitialized object reports `YAML_NO_EVENT`. -/
def get_event_type (obj : EventObj) : Int :=
  if obj.init then eventTypeCode obj.event.data else YAML_NO_EVENT

/-- Outcome of the `on_extract` callback `extract_event`: a value pushed on
the Yorick stack (`ypush_int`, `ypush_long`, or a string via `push_ustring`,
whose argument may be a NULL pointer), a call to `y_error`, or an undefined
C execution (the embedding makes explicit any place where the C code reads
through an invalid pointer). -/
inductive ExtractResult where
  | pushInt (v : Int)
  | pushLong (v : Int)
  | pushStr (s : Option String)
  | err (msg : String)
  | undefinedBehavior (msg : String)
deriving DecidableEq

/-- `extract_mark` in `yaml.c`: dispatch on the member-name suffix after
`start` or `end`. -/
def extract_mark (mark : Mark) (name : String) : ExtractResult :=
  if name = "_index" then ExtractResult.pushLong mark.index
  else if name = "_line" then ExtractResult.pushLong mark.line
  else if name = "_column" then ExtractResult.pushLong mark.column
  else ExtractResult.err "unknown member"

/-- The `switch (obj->event.type)` of `extract_event` in `yaml.c`, with the
`EXTRACT_*` macros: per-kind field dispatch; `Option.none` means the switch
fell through without returning (the C code then tries the mark prefixes).
For a DOCUMENT-START event the C code reads
`obj->event.data.document_start.version_directive->major` without checking
the pointer for NULL, which is undefined behavior when no version directive
is present; the embedding records that case explicitly. -/
def extract_fields : EventData → String → Option ExtractResult
  | EventData.noEvent, _ => Option.none
  | EventData.streamStart encoding, name =>
      if name = "encoding" then Option.some (ExtractResult.pushInt encoding)
      else Option.none
  | EventData.streamEnd, _ => Option.none
  | EventData.documentStart version_directive implicitFlag, name =>
      if name = "implicit" then Option.some (ExtractResult.pushInt implicitFlag)
      else if name = "version" then
        match version_directive with
        | Option.some v =>
            Option.some (ExtractResult.pushStr
              (Option.some (toString v.1 ++ "." ++ toString v.2)))
        | Option.none =>
            Option.some (ExtractResult.undefinedBehavior
              "dereference of NULL version_directive")
      else Option.none
  | EventData.documentEnd implicitFlag, name =>
      if name = "implicit" then Option.some (ExtractResult.pushInt implicitFlag)
      else Option.none
  | EventData.alias anchor, name =>
      if name = "anchor" then Option.some (ExtractResult.pushStr anchor)
      else Option.none
  | EventData.scalar anchor tag value length plainImp quotedImp style, name =>
      if name = "anchor" then Option.some (ExtractResult.pushStr anchor)
      else if name = "tag" then Option.some (ExtractResult.pushStr tag)
      else if name = "value" then
        Option.some (ExtractResult.pushStr (Option.some value))
      else if name = "length" then Option.some (ExtractResult.pushLong length)
      else if name = "plain_implicit" then
        Option.some (ExtractResult.pushInt plainImp)
      else if name = "quoted_implicit" then
        Option.some (ExtractResult.pushInt quotedImp)
      else if name = "style" then Option.some (ExtractResult.pushInt style)
      else Option.none
  | EventData.sequenceStart anchor tag implicitFlag style, name =>
      if name = "anchor" then Option.some (ExtractResult.pushStr anchor)
      else if name = "tag" then Option.some (ExtractResult.pushStr tag)
      else if name = "implicit" then
        Option.some (ExtractResult.pushInt implicitFlag)
      else if name = "style" then Option.some (ExtractResult.pushInt style)
      else Option.none
  | EventData.sequenceEnd, _ => Option.none
  | EventData.mappingStart anchor tag implicitFlag style, name =>
      if name = "anchor" then Option.some (ExtractResult.pushStr anchor)
      else if name = "tag" then Option.some (ExtractResult.pushStr tag)
      else if name = "implicit" then
        Option.some (ExtractResult.pushInt implicitFlag)
      else if name = "style" then Option.some (ExtractResult.pushInt style)
      else Option.none
  | EventData.mappingEnd, _ => Option.none

/-- `extract_event` in `yaml.c`: the `type` member is served first and always
succeeds; for an initialized event the kind-specific fields are tried, then
the mark prefixes `start`/`end` (the C uses `strncmp(name, "start", 5)` and
`strncmp(name, "end", 3)`), and any other name is the usage error
"unknown YAML event member"; any member other than `type` of an
uninitialized event is the error "uninitialized YAML event". -/
def extract_event (obj : EventObj) (name : String) : ExtractResult :=
  if name = "type" then ExtractResult.pushInt (get_event_type obj)
  else if obj.init then
    match extract_fields obj.event.data name with
    | Option.some r => r
    | Option.none =>
        if name.data.take 5 = "start".data then
          extract_mark obj.event.startMark (String.mk (name.data.drop 5))
        else if name.data.take 3 = "end".data then
          extract_mark obj.event.endMark (String.mk (name.data.drop 3))
        else ExtractResult.err "unknown YAML event member"
  else ExtractResult.err "uninitialized YAML event"

/-- Side effects that the binding performs on an event slot, recorded as an
explicit trace: `pushEvent` is `push_event()` (a fresh, uninitialized slot),
`clearInit` is the assignment `obj->init = FALSE`, `release c` is
`yaml_event_delete` on a slot currently holding contents `c`, `setContent c`
is the engine writing freshly built contents `c` into the slot, and
`setInit` is the assignment `obj->init = TRUE`. -/
inductive Op where
  | pushEvent
  | clearInit
  | release (content : YamlEvent)
  | setContent (content : YamlEvent)
  | setInit
deriving DecidableEq

/-- The contents released (`yaml_event_delete`d) along an operation trace. -/
def releasedContents (ops : List Op) : List YamlEvent :=
  ops.filterMap fun o =>
    match o with
    | Op.release c => Option.some c
    | _ => Option.none

/-- `get_event` in `yaml.c` as called by every event constructor, always with
flags `NIL_OK|FRESH`: a nil argument (`Option.none`) pushes a fresh
uninitialized slot; an existing slot that is initialized has its flag
cleared first and its contents released (in that order). -/
def get_event : Option EventObj → EventObj × List Op
  | Option.none => (⟨false, defaultEvent⟩, [Op.pushEvent])
  | Option.some obj =>
      if obj.init then
        ({ obj with init := false }, [Op.clearInit, Op.release obj.event])
      else (obj, [])

/-- The shared tail of every `Y_yaml_*_event` constructor in `yaml.c`:
`get_event(iarg, NIL_OK|FRESH)` on the optional slot argument, then
`yaml_*_event_initialize`; on engine failure (`initOk = false`) the
constructor raises `y_error(kindMsg)` and the slot is left uninitialized; on
success the slot holds the new contents and `obj->init = TRUE` is set. -/
def construct_event (arg : Option EventObj) (initOk : Bool)
    (newContent : YamlEvent) (kindMsg : String) :
    EventObj × List Op × Except String Unit :=
  if initOk then
    (⟨true, newContent⟩,
     (get_event arg).2 ++ [Op.setContent newContent, Op.setInit],
     Except.ok ())
  else
    ((get_event arg).1, (get_event arg).2, Except.error kindMsg)

/-- The exclusive processing mode of a parser (`parsing_t` in `yaml.c`). -/
inductive Parsing where
  | ANY
  | SCAN
  | PARSE
  | LOAD
deriving DecidableEq

/-- The Yorick `yaml_parser` user object `parser_t`: the `init` flag, the
mode field `parsing`, and the libyaml parser, whose internal state is
abstracted as a natural number consumed by the engine oracle. -/
structure ParserObj where
  init : Bool
  parsing : Parsing
  state : Nat
deriving DecidableEq

/-- Result of one `Y_yaml_parse` call: the parser object afterwards, the
destination event slot afterwards (`Option.none` when the call errored
before any slot existed), the trace of slot operations performed, and the
call's outcome (`y_error` message or success). -/
structure ParseResult where
  parser : ParserObj
  slot : Option EventObj
  ops : List Op
  result : Except String Unit

/-- The mode fixing at the top of `Y_yaml_parse`:
`if (src->parsing == ANY) src->parsing = PARSE`. -/
def fix_mode (src : ParserObj) : ParserObj :=
  if src.parsing = Parsing.ANY then { src with parsing := Parsing.PARSE }
  else src

/-- Destination-slot handling of `Y_yaml_parse`: a supplied slot is reused
after clearing its flag and deleting its prior contents; otherwise
`push_event()` creates a fresh uninitialized slot. -/
def parse_dst_slot : Option EventObj → EventObj × List Op
  | Option.some dst =>
      if dst.init then
        ({ dst with init := false }, [Op.clearInit, Op.release dst.event])
      else (dst, [])
  | Option.none => (⟨false, defaultEvent⟩, [Op.pushEvent])

/-- `Y_yaml_parse` in `yaml.c`.  `engine` abstracts `yaml_parser_parse`:
from an engine state it either fails (`Option.none`) or produces one event
and the next engine state.  The mode check comes first: a parser in mode
`ANY` is fixed to `PARSE`; a parser in mode `SCAN` or `LOAD` raises
`y_error("not an event-based parser")` before the destination slot is even
fetched.  Then the destination slot is prepared, `yaml_parser_parse` is
called, a failure raises `y_error("parser error")` with the slot left
uninitialized, and on success the slot receives the event and is marked
initialized. -/
def yaml_parse (engine : Nat → Option (YamlEvent × Nat))
    (src : ParserObj) (dstArg : Option EventObj) : ParseResult :=
  if src.parsing = Parsing.ANY ∨ src.parsing = Parsing.PARSE then
    match engine (fix_mode src).state with
    | Option.none =>
        ⟨fix_mode src, Option.some (parse_dst_slot dstArg).1,
         (parse_dst_slot dstArg).2, Except.error "parser error"⟩
    | Option.some (ev, s1) =>
        ⟨{ fix_mode src with state := s1 }, Option.some ⟨true, ev⟩,
         (parse_dst_slot dstArg).2 ++ [Op.setContent ev, Op.setInit],
         Except.ok ()⟩
  else
    ⟨src, dstArg, [], Except.error "not an event-based parser"⟩

/-- The event loop of `Y_yaml_emit` in `yaml.c`.  The Yorick stack index
`iarg` runs from `argc - 2` down to `0`, i.e. over the event arguments in
their written order, first to last; the list argument here is that order.
`emitProc` abstracts `yaml_emitter_emit` on the emitter's internal state
(a natural number): `Option.none` is an emission failure.  For each event:
an uninitialized slot raises `y_error("unintialized event")` (spelling as in
the source) before anything else; otherwise the slot's flag is cleared
before `yaml_emitter_emit` is called, and an emission failure raises
`y_error("emitter error")`, ending the loop with the remaining slots
untouched. -/
def yaml_emit (emitProc : Nat → YamlEvent → Option Nat) :
    Nat → List EventObj → Nat × List EventObj × Except String Unit
  | em, [] => (em, [], Except.ok ())
  | em, src :: rest =>
      if src.init = false then
        (em, src :: rest, Except.error "unintialized event")
      else
        match emitProc em src.event with
        | Option.none =>
            (em, { src with init := false } :: rest,
             Except.error "emitter error")
        | Option.some em1 =>
            match yaml_emit emitProc em1 rest with
            | (emf, rest1, r) => (emf, { src with init := false } :: rest1, r)

/-- The emitter state reached after successfully emitting each event of the
list in order, starting from `em`; `Option.none` if some emission fails. -/
def emitChain (emitProc : Nat → YamlEvent → Option Nat) :
    Nat → List EventObj → Option Nat
  | em, [] => Option.some em
  | em, e :: rest =>
      match emitProc em e.event with
      | Option.none => Option.none
      | Option.some em1 => emitChain emitProc em1 rest

/-- Where an emitter writes: `stdout` when the filename is NULL or empty,
else the opened file. -/
inductive OutputSink where
  | standardOut
  | file (path : String)
deriving DecidableEq

/-- The Yorick `yaml_emitter` user object `emitter_t`: `init` flag, the
`open` flag recording whether the output file must be closed, and the
output sink. -/
structure EmitterObj where
  init : Bool
  isOpen : Bool
  output : OutputSink
deriving DecidableEq

/-- Environment oracles for `Y_yaml_open`: whether `fopen(filename, mode)`
succeeds, and whether `yaml_parser_initialize` / `yaml_emitter_initialize`
succeed. -/
structure IoEnv where
  fopenOk : Option String → String → Bool
  parserInitOk : Bool
  emitterInitOk : Bool

/-- Outcome of `Y_yaml_open`: a parser object, an emitter object, or a
`y_error` message. -/
inductive OpenResult where
  | parserObj (p : ParserObj)
  | emitterObj (e : EmitterObj)
  | failure (msg : String)
deriving DecidableEq

/-- `Y_yaml_open` in `yaml.c`, with the access-mode dispatch exactly as
written in the source: the parser branch tests
`mode[0] == 'r' && mode[1] == '\0'`; the emitter branch tests
`(mode[0] == 'r' || mode[0] == 'a') && mode[1] == '\0'` (note: `'r'`, not
`'w'`, appears in the source); everything else raises
`y_error("invalid file access mode")`.  A NUL-terminated C string of length
one with first character `c` is the list `[c]`. -/
def yaml_open (env : IoEnv) (filename : Option String) (mode : List Char) :
    OpenResult :=
  if mode = ['r'] then
    if env.fopenOk filename "r" = false then
      OpenResult.failure "failed to open file for reading"
    else if env.parserInitOk = false then
      OpenResult.failure "failed to initialize parser"
    else OpenResult.parserObj ⟨true, Parsing.ANY, 0⟩
  else if mode = ['r'] ∨ mode = ['a'] then
    if filename = Option.none ∨ filename = Option.some "" then
      if env.emitterInitOk = false then
        OpenResult.failure "failed to initialize emitter"
      else OpenResult.emitterObj ⟨true, false, OutputSink.standardOut⟩
    else
      if env.fopenOk filename (String.mk mode) = false then
        OpenResult.failure "failed to open file for writing"
      else if env.emitterInitOk = false then
        OpenResult.failure "failed to initialize emitter"
      else
        OpenResult.emitterObj ⟨true, true, OutputSink.file (filename.getD "")⟩
  else OpenResult.failure "invalid file access mode"

/-- An environment in which every `fopen` and every engine initialization
succeeds. -/
def allOkEnv : IoEnv :=
  ⟨fun _ _ => true, true, true⟩

/-- C `isspace` for the default locale: space, `\t`, `\n`, vertical tab,
form feed, `\r`. -/
def cIsSpace (c : Char) : Bool :=
  c == ' ' || c == '\t' || c == '\n' || c == '\x0b' || c == '\x0c' || c == '\r'

/-- The digit test of `parse_integer` in `yaml.c`: the C code rejects a
character `c` when `c < '0' || c > '9'`. -/
def cIsDigit (c : Char) : Bool :=
  decide ('0' ≤ c) && decide (c ≤ '9')

/-- Flags of `parse_integer` (`TRIM_LEFT`, `TRIM_RIGHT`, `NO_SIGN`). -/
structure PIFlags where
  trimLeft : Bool
  trimRight : Bool
  noSign : Bool
deriving DecidableEq

/-- The flag value `NO_SIGN` passed by `Y_yaml_document_start_event`. -/
def NO_SIGN : PIFlags := ⟨false, false, true⟩

/-- The accumulation loop of `parse_integer`:
`while (TRUE) { c = *++str; if (c < '0' || c > '9') break;
value = 10*value + (c - '0'); }`, returning the value and the position of
the first unconsumed character. -/
def digitLoop : Int → List Char → Int × List Char
  | value, [] => (value, [])
  | value, c :: rest =>
      if cIsDigit c then digitLoop (10 * value + ((c.toNat : Int) - 48)) rest
      else (value, c :: rest)

/-- The sign handling of `parse_integer`: unless `NO_SIGN` is set, a
leading `'+'` or `'-'` is consumed and recorded. -/
def parse_sign (flags : PIFlags) (s : List Char) : Int × List Char :=
  if flags.noSign = false then
    match s with
    | '+' :: rest => ((1 : Int), rest)
    | '-' :: rest => ((-1 : Int), rest)
    | _ => ((0 : Int), s)
  else ((0 : Int), s)

/-- The body of `parse_integer` after sign handling: the first character
must be a digit (`if (c < '0' || c > '9') return NULL`), then the
accumulation loop runs, the result is optionally right-trimmed, and the
value is negated for a negative sign. -/
def parse_integer_core (flags : PIFlags) (sign : Int) (s : List Char) :
    Option (Int × List Char) :=
  match s with
  | [] => Option.none
  | c :: rest =>
      if cIsDigit c then
        Option.some
          ((if sign < 0 then -(digitLoop ((c.toNat : Int) - 48) rest).1
            else (digitLoop ((c.toNat : Int) - 48) rest).1),
           if flags.trimRight then
             (digitLoop ((c.toNat : Int) - 48) rest).2.dropWhile cIsSpace
           else (digitLoop ((c.toNat : Int) - 48) rest).2)
      else Option.none

/-- `parse_integer` in `yaml.c`, over the C string seen as the list of its
characters before the terminating NUL; returns the parsed value and the
suffix starting at the first unparsed character, or `Option.none` on
error. -/
def parse_integer (str0 : List Char) (flags : PIFlags) :
    Option (Int × List Char) :=
  parse_integer_core flags
    (parse_sign flags (if flags.trimLeft then str0.dropWhile cIsSpace else str0)).1
    (parse_sign flags (if flags.trimLeft then str0.dropWhile cIsSpace else str0)).2

/-- The version-text processing of `Y_yaml_document_start_event` in
`yaml.c`: `parse_integer(str, &major, NO_SIGN)`, then the check
`str[0] != '.'` (an exhausted string holds the terminating NUL there, which
also fails), then `parse_integer(str + 1, &minor, NO_SIGN)` which must
leave `str[0] == '\0'`; any other shape is the error "bad version number"
(`Option.none`). -/
def parse_version (str : List Char) : Option (Int × Int) :=
  match parse_integer str NO_SIGN with
  | Option.none => Option.none
  | Option.some (major, rest) =>
      match rest with
      | [] => Option.none
      | c :: rest2 =>
          if c = '.' then
            match parse_integer rest2 NO_SIGN with
            | Option.none => Option.none
            | Option.some (minor, rest3) =>
                if rest3 = [] then Option.some (major, minor) else Option.none
          else Option.none

/-- Stated from the spec's words, for comparison with `parse_version`: the
version text "must match the pattern `<non-negative integer>.<non-negative
integer>` exactly (no surrounding content)" and carries no sign. -/
def isVersionPattern (s : List Char) : Prop :=
  ∃ d1 d2 : List Char, d1 ≠ [] ∧ d2 ≠ [] ∧
    (∀ c ∈ d1, cIsDigit c = true) ∧ (∀ c ∈ d2, cIsDigit c = true) ∧
    s = d1 ++ '.' :: d2

/-- The `value=` keyword argument of `Y_yaml_scalar_event`: absent, a Yorick
integer, real, or complex scalar, or a string (possibly the NULL string). -/
inductive ScalarValue where
  | absent
  | intVal (v : Int)
  | floatVal (v : Int)
  | complexVal (re : Int) (im : Int)
  | strVal (s : Option String)
deriving DecidableEq

/-- Models C `sprintf` with format `"%g"` restricted to integer-valued
doubles of magnitude below `10^6` (all values the spec exercises are of
this form): `%g` prints such a value with no fractional part and no
exponent, exactly as the decimal rendering of the integer. -/
def fmt_g (v : Int) : String := toString v

/-- The scalar text built by `Y_yaml_scalar_event` for a given `value=`
argument: integers via `sprintf("%ld")`, reals via `sprintf("%g")`,
complex values via `sprintf("%g %s %gim", re, (im >= 0 ? "+" : "-"),
fabs(im))`, strings passed through (`ygets_q` may yield NULL). -/
def scalar_value_text : ScalarValue → Option String
  | ScalarValue.absent => Option.none
  | ScalarValue.intVal v => Option.some (toString v)
  | ScalarValue.floatVal v => Option.some (fmt_g v)
  | ScalarValue.complexVal re im =>
      Option.some (fmt_g re ++ " " ++ (if 0 ≤ im then "+" else "-") ++ " "
        ++ fmt_g (if im < 0 then -im else im) ++ "im")
  | ScalarValue.strVal s => s

/-- The `length` computed by `Y_yaml_scalar_event`: 0 when `value` is NULL
or empty, else `strlen(value)` (the byte length of the text). -/
def scalar_length (v : ScalarValue) : Nat :=
  match scalar_value_text v with
  | Option.none => 0
  | Option.some s => if s = "" then 0 else s.utf8ByteSize

/-- Claim C1: contrary to the claim, access mode "w" does not yield an
emitter: even in an environment where the path opens fine and every engine
initialization succeeds, `Y_yaml_open` raises "invalid file access mode",
because the emitter branch of the source tests `mode[0] == 'r'` (a dead
duplicate of the parser branch's test) where the write mode was plainly
intended — the branch's own `fopen` error message says "for writing". -/
theorem open_mode_w_rejected :
    yaml_open allOkEnv (Option.some "f.yml") ['w'] =
      OpenResult.failure "invalid file access mode" := by
  decide

/-- Claim C2: contrary to the claim, extracting the `version` field of an
initialized DOCUMENT-START event whose document carried no version
directive is undefined behavior, not a contract error: `extract_event`
reads `version_directive->major` without checking the pointer, and libyaml
leaves `version_directive` NULL when the document had no `%YAML`
directive. -/
theorem extract_version_null_ub :
    extract_event
        ⟨true, ⟨EventData.documentStart Option.none 1, ⟨0, 0, 0⟩, ⟨0, 0, 0⟩⟩⟩
        "version"
      = ExtractResult.undefinedBehavior "dereference of NULL version_directive" := by
  decide

/-- Claim C10: accessing the `type` member always succeeds — it pushes the
`YAML_NO_EVENT` code for an uninitialized event and the event's kind code
for an initialized one — while accessing any other member of an
uninitialized event fails with the error "uninitialized YAML event". -/
theorem extract_type_field (obj : EventObj) (name : String) :
    extract_event obj "type" = ExtractResult.pushInt (get_event_type obj) ∧
    (obj.init = false → get_event_type obj = YAML_NO_EVENT) ∧
    (obj.init = true → get_event_type obj = eventTypeCode obj.event.data) ∧
    (obj.init = false → name ≠ "type" →
      extract_event obj name = ExtractResult.err "uninitialized YAML event") := by
  refine ⟨?_, ?_, ?_, ?_⟩
  · simp [extract_event]
  · intro h; simp [get_event_type, h]
  · intro h; simp [get_event_type, h]
  · intro h hn; simp [extract_event, h, hn]

/-- Witness for C10 at a concrete uninitialized event and the member
`anchor`. -/
theorem extract_type_field_witness :
    extract_event ⟨false, defaultEvent⟩ "anchor" =
      ExtractResult.err "uninitialized YAML event" :=
  (extract_type_field ⟨false, defaultEvent⟩ "anchor").2.2.2 rfl (by decide)

/-- Claim C3: the first `yaml_parse` call on a parser in mode `ANY` fixes
the mode to `PARSE`; a call on a parser whose mode is `SCAN` or `LOAD`
fails with "not an event-based parser", leaving the parser object and the
destination event slot untouched and performing no slot operation; a
parser already in mode `PARSE` stays in mode `PARSE`, so the mode never
changes once fixed. -/
theorem parse_mode_discipline (engine : Nat → Option (YamlEvent × Nat))
    (src : ParserObj) (dstArg : Option EventObj) :
    (src.parsing = Parsing.ANY →
      (yaml_parse engine src dstArg).parser.parsing = Parsing.PARSE) ∧
    (src.parsing = Parsing.PARSE →
      (yaml_parse engine src dstArg).parser.parsing = Parsing.PARSE) ∧
    ((src.parsing = Parsing.SCAN ∨ src.parsing = Parsing.LOAD) →
      yaml_parse engine src dstArg =
        ⟨src, dstArg, [], Except.error "not an event-based parser"⟩) := by
  refine ⟨?_, ?_, ?_⟩
  · intro h
    cases hE : engine src.state with
    | none => simp [yaml_parse, fix_mode, h, hE]
    | some v =>
        obtain ⟨ev, s1⟩ := v
        simp [yaml_parse, fix_mode, h, hE]
  · intro h
    cases hE : engine src.state with
    | none => simp [yaml_parse, fix_mode, h, hE]
    | some v =>
        obtain ⟨ev, s1⟩ := v
        simp [yaml_parse, fix_mode, h, hE]
  · intro h
    rcases h with h | h <;> simp [yaml_parse, h]

/-- Witness for C3 at a concrete parser fixed to mode `SCAN`. -/
theorem parse_mode_discipline_witness :
    yaml_parse (fun _ => Option.none) ⟨true, Parsing.SCAN, 0⟩ Option.none =
      ⟨⟨true, Parsing.SCAN, 0⟩, Option.none, [],
       Except.error "not an event-based parser"⟩ :=
  (parse_mode_discipline (fun _ => Option.none) ⟨true, Parsing.SCAN, 0⟩
    Option.none).2.2 (Or.inl rfl)

/-- Claim C4: `yaml_emit` on an initialized event clears its `init` flag
before emission is attempted, so the slot is uninitialized afterwards
whether the emission succeeds or fails, and a second `yaml_emit` call on it
fails with the uninitialized-event error (spelled "unintialized event" in
the source); on an uninitialized event the error is raised before any
ownership transfer: emitter state and all slots are untouched. -/
theorem emit_ownership (p p2 : Nat → YamlEvent → Option Nat) (em em2 : Nat)
    (src : EventObj) (rest : List EventObj) :
    (src.init = true →
      (yaml_emit p em [src]).2.1 = [{ src with init := false }] ∧
      yaml_emit p2 em2 [{ src with init := false }] =
        (em2, [{ src with init := false }],
         Except.error "unintialized event")) ∧
    (src.init = false →
      yaml_emit p em (src :: rest) =
        (em, src :: rest, Except.error "unintialized event")) := by
  constructor
  · intro h
    constructor
    · cases hE : p em src.event with
      | none => simp [yaml_emit, h, hE]
      | some em1 => simp [yaml_emit, h, hE]
    · simp [yaml_emit]
  · intro h
    simp [yaml_emit, h]

/-- Witness for C4 at a concrete initialized event and an emitter that
accepts everything. -/
theorem emit_ownership_witness :
    (yaml_emit (fun _ _ => Option.some 0) 0 [⟨true, defaultEvent⟩]).2.1 =
      [⟨false, defaultEvent⟩] ∧
    yaml_emit (fun _ _ => Option.some 0) 0 [⟨false, defaultEvent⟩] =
      (0, [⟨false, defaultEvent⟩], Except.error "unintialized event") :=
  (emit_ownership (fun _ _ => Option.some 0) (fun _ _ => Option.some 0) 0 0
    ⟨true, defaultEvent⟩ []).1 rfl

/-- Claim C9: whenever `yaml_parse` fails with the error "parser error",
the destination slot — reused or freshly created — is left uninitialized,
and the prior content of a reused initialized slot has already been
released. -/
theorem parse_error_uninit (engine : Nat → Option (YamlEvent × Nat))
    (src : ParserObj) (dstArg : Option EventObj)
    (h : (yaml_parse engine src dstArg).result = Except.error "parser error") :
    ∃ s, (yaml_parse engine src dstArg).slot = Option.some s ∧
      s.init = false ∧
      releasedContents (yaml_parse engine src dstArg).ops =
        (match dstArg with
         | Option.some d => if d.init then [d.event] else []
         | Option.none => []) := by
  by_cases hm : src.parsing = Parsing.ANY ∨ src.parsing = Parsing.PARSE
  · cases hE : engine (fix_mode src).state with
    | none =>
        refine ⟨(parse_dst_slot dstArg).1, ?_, ?_, ?_⟩
        · simp [yaml_parse, hm, hE]
        · cases dstArg with
          | none => simp [parse_dst_slot]
          | some d =>
              by_cases hd : d.init
              · simp [parse_dst_slot, hd]
              · simp [parse_dst_slot, hd]
        · cases dstArg with
          | none => simp [yaml_parse, hm, hE, parse_dst_slot, releasedContents]
          | some d =>
              by_cases hd : d.init
              · simp [yaml_parse, hm, hE, parse_dst_slot, hd, releasedContents]
              · simp [yaml_parse, hm, hE, parse_dst_slot, hd, releasedContents]
    | some v =>
        exfalso
        obtain ⟨ev, s1⟩ := v
        simp [yaml_parse, hm, hE] at h
  · exfalso
    simp only [yaml_parse, if_neg hm] at h
    injection h with h'
    exact absurd h' (by decide)

/-- Witness for C9: a concrete failing engine with a reused initialized
slot. -/
theorem parse_error_uninit_witness :
    ∃ s, (yaml_parse (fun _ => Option.none) ⟨true, Parsing.ANY, 0⟩
        (Option.some ⟨true, defaultEvent⟩)).slot = Option.some s ∧
      s.init = false ∧
      releasedContents (yaml_parse (fun _ => Option.none)
          ⟨true, Parsing.ANY, 0⟩ (Option.some ⟨true, defaultEvent⟩)).ops =
        [defaultEvent] :=
  parse_error_uninit (fun _ => Option.none) ⟨true, Parsing.ANY, 0⟩
    (Option.some ⟨true, defaultEvent⟩) rfl

/-- Claim C7: reinitializing a slot — through any event constructor
(`construct_event` is the shared `get_event(NIL_OK|FRESH)` +
`yaml_*_event_initialize` tail of all ten `Y_yaml_*_event` functions) or
through `yaml_parse` with a reusable slot — releases the prior content
exactly once, clears the `init` flag before releasing, leaves the slot on
success holding only the freshly built content, and never leaves the slot
marked initialized while holding released content. -/
theorem reinit_safety (slot : EventObj) (initOk : Bool) (newC : YamlEvent)
    (kindMsg : String) (engine : Nat → Option (YamlEvent × Nat))
    (src : ParserObj) (dst : EventObj) :
    (releasedContents
        (construct_event (Option.some slot) initOk newC kindMsg).2.1 =
      if slot.init then [slot.event] else []) ∧
    (slot.init = true →
      ∃ tail, (construct_event (Option.some slot) initOk newC kindMsg).2.1 =
        Op.clearInit :: Op.release slot.event :: tail) ∧
    ((construct_event (Option.some slot) initOk newC kindMsg).2.2 =
        Except.ok () →
      (construct_event (Option.some slot) initOk newC kindMsg).1 =
        ⟨true, newC⟩) ∧
    (newC ≠ slot.event →
      (construct_event (Option.some slot) initOk newC kindMsg).1.init = true →
      (construct_event (Option.some slot) initOk newC kindMsg).1.event ∉
        releasedContents
          (construct_event (Option.some slot) initOk newC kindMsg).2.1) ∧
    ((src.parsing = Parsing.ANY ∨ src.parsing = Parsing.PARSE) →
      releasedContents (yaml_parse engine src (Option.some dst)).ops =
        if dst.init then [dst.event] else []) := by
  refine ⟨?_, ?_, ?_, ?_, ?_⟩
  · by_cases hs : slot.init <;> by_cases ho : initOk <;>
      simp [construct_event, get_event, hs, ho, releasedContents]
  · intro hs
    by_cases ho : initOk
    · exact ⟨[Op.setContent newC, Op.setInit],
        by simp [construct_event, get_event, hs, ho]⟩
    · exact ⟨[], by simp [construct_event, get_event, hs, ho]⟩
  · intro h
    by_cases ho : initOk
    · simp [construct_event, ho]
    · simp [construct_event, ho] at h
  · intro hne hinit
    by_cases hs : slot.init <;> by_cases ho : initOk
    · simp [construct_event, get_event, hs, ho, releasedContents]
      exact hne
    · exfalso
      simp [construct_event, get_event, hs, ho] at hinit
    · simp [construct_event, get_event, hs, ho, releasedContents]
    · simp [construct_event, get_event, hs, ho, releasedContents]
  · intro hm
    cases hE : engine (fix_mode src).state with
    | none =>
        by_cases hd : dst.init <;>
          simp [yaml_parse, hm, hE, parse_dst_slot, hd, releasedContents]
    | some v =>
        obtain ⟨ev, s1⟩ := v
        by_cases hd : dst.init <;>
          simp [yaml_parse, hm, hE, parse_dst_slot, hd, releasedContents]

/-- Witness for C7: reinitializing a concrete initialized slot with fresh
STREAM-END content never leaves released content in the slot. -/
theorem reinit_safety_witness :
    (construct_event (Option.some ⟨true, defaultEvent⟩) true
        ⟨EventData.streamEnd, ⟨0, 0, 0⟩, ⟨0, 0, 0⟩⟩ "k").1.event ∉
      releasedContents (construct_event (Option.some ⟨true, defaultEvent⟩)
        true ⟨EventData.streamEnd, ⟨0, 0, 0⟩, ⟨0, 0, 0⟩⟩ "k").2.1 :=
  (reinit_safety ⟨true, defaultEvent⟩ true
    ⟨EventData.streamEnd, ⟨0, 0, 0⟩, ⟨0, 0, 0⟩⟩ "k" (fun _ => Option.none)
    ⟨true, Parsing.PARSE, 0⟩ ⟨true, defaultEvent⟩).2.2.2.1 (by decide) rfl

/-- Auxiliary for C8: when every event is initialized and every emission
succeeds, the loop of `Y_yaml_emit` consumes all slots in order and ends in
the chained emitter state. -/
lemma yaml_emit_success (p : Nat → YamlEvent → Option Nat) (em emf : Nat)
    (evs : List EventObj) (h1 : ∀ e ∈ evs, e.init = true)
    (h2 : emitChain p em evs = Option.some emf) :
    yaml_emit p em evs =
      (emf, evs.map (fun e => { e with init := false }), Except.ok ()) := by
  induction evs generalizing em with
  | nil =>
      simp [emitChain] at h2
      subst h2
      simp [yaml_emit]
  | cons e rest ih =>
      have he : e.init = true := h1 e (by simp)
      cases hE : p em e.event with
      | none => simp [emitChain, hE] at h2
      | some em1 =>
          have h2' : emitChain p em1 rest = Option.some emf := by
            simpa [emitChain, hE] using h2
          have hrec := ih em1 (fun x hx => h1 x (List.mem_cons_of_mem e hx)) h2'
          simp [yaml_emit, he, hE, hrec]

/-- Auxiliary for C8: when emission fails on the event after `pre`, the
loop of `Y_yaml_emit` has consumed every event of `pre` and the failing
event, and the remaining slots are untouched. -/
lemma yaml_emit_failure (p : Nat → YamlEvent → Option Nat) (em emk : Nat)
    (pre : List EventObj) (ev : EventObj) (post : List EventObj)
    (h1 : ∀ e ∈ pre, e.init = true)
    (h2 : emitChain p em pre = Option.some emk)
    (h3 : ev.init = true) (h4 : p emk ev.event = Option.none) :
    yaml_emit p em (pre ++ ev :: post) =
      (emk, pre.map (fun e => { e with init := false }) ++
        { ev with init := false } :: post, Except.error "emitter error") := by
  induction pre generalizing em with
  | nil =>
      simp [emitChain] at h2
      subst h2
      simp [yaml_emit, h3, h4]
  | cons e rest ih =>
      have he : e.init = true := h1 e (by simp)
      cases hE : p em e.event with
      | none => simp [emitChain, hE] at h2
      | some em1 =>
          have h2' : emitChain p em1 rest = Option.some emk := by
            simpa [emitChain, hE] using h2
          have hrec := ih em1 (fun x hx => h1 x (List.mem_cons_of_mem e hx)) h2'
          simp [yaml_emit, he, hE, hrec]

/-- Claim C8: `yaml_emit` processes its event arguments strictly first to
last; if every emission succeeds all slots are consumed in order, and if
the emission of one event fails, the events before it have each been
emitted and consumed, the failing event has been consumed, and every event
after it is untouched (hence still initialized if it was). -/
theorem emit_in_order :
    (∀ (p : Nat → YamlEvent → Option Nat) (em emk : Nat)
        (pre : List EventObj) (ev : EventObj) (post : List EventObj),
      (∀ e ∈ pre, e.init = true) → emitChain p em pre = Option.some emk →
      ev.init = true → p emk ev.event = Option.none →
      yaml_emit p em (pre ++ ev :: post) =
        (emk, pre.map (fun e => { e with init := false }) ++
          { ev with init := false } :: post,
         Except.error "emitter error")) ∧
    (∀ (p : Nat → YamlEvent → Option Nat) (em emf : Nat)
        (evs : List EventObj),
      (∀ e ∈ evs, e.init = true) → emitChain p em evs = Option.some emf →
      yaml_emit p em evs =
        (emf, evs.map (fun e => { e with init := false }), Except.ok ())) :=
  ⟨fun p em emk pre ev post h1 h2 h3 h4 =>
    yaml_emit_failure p em emk pre ev post h1 h2 h3 h4,
   fun p em emf evs h1 h2 => yaml_emit_success p em emf evs h1 h2⟩

/-- Witness for C8: three initialized events, the second emission failing;
the first two slots are consumed, the third is untouched. -/
theorem emit_in_order_witness :
    yaml_emit (fun n _ => if n = 0 then Option.some 1 else Option.none) 0
        ([⟨true, defaultEvent⟩] ++ ⟨true, defaultEvent⟩ ::
          [⟨true, defaultEvent⟩]) =
      (1, [⟨false, defaultEvent⟩] ++ ⟨false, defaultEvent⟩ ::
        [⟨true, defaultEvent⟩], Except.error "emitter error") :=
  emit_in_order.1 (fun n _ => if n = 0 then Option.some 1 else Option.none)
    0 1 [⟨true, defaultEvent⟩] ⟨true, defaultEvent⟩ [⟨true, defaultEvent⟩]
    (by simp) rfl rfl rfl

/-- Claim C6: `Y_yaml_scalar_event` formats numeric values to canonical
text before storing: integer 42 gives text "42" of length 2, complex
(3, -2) gives "3 - 2im" (sign from the imaginary part, absolute value
printed); the stored length always equals the byte length of the final
text, and an empty or absent value gives length 0. -/
theorem scalar_event_formatting :
    scalar_value_text (ScalarValue.intVal 42) = Option.some "42" ∧
    scalar_length (ScalarValue.intVal 42) = 2 ∧
    scalar_value_text (ScalarValue.complexVal 3 (-2)) =
      Option.some "3 - 2im" ∧
    scalar_length (ScalarValue.complexVal 3 (-2)) = 7 ∧
    (∀ v s, scalar_value_text v = Option.some s →
      scalar_length v = s.utf8ByteSize) ∧
    (∀ v, scalar_value_text v = Option.none → scalar_length v = 0) := by
  refine ⟨by decide, by decide, by decide, by decide, ?_, ?_⟩
  · intro v s h
    by_cases hs : s = ""
    · subst hs
      simp [scalar_length, h]
      decide
    · simp [scalar_length, h, hs]
  · intro v h
    simp [scalar_length, h]

/-- Witness for C6: the stored length of a concrete string value equals its
byte length. -/
theorem scalar_event_formatting_witness :
    scalar_length (ScalarValue.strVal (Option.some "ab")) =
      ("ab").utf8ByteSize :=
  scalar_event_formatting.2.2.2.2.1 (ScalarValue.strVal (Option.some "ab"))
    "ab" rfl

/-- Auxiliary for C5: the accumulation loop consumes exactly a block of
digits followed by a non-digit boundary. -/
lemma digitLoop_app (v : Int) (ds rest : List Char)
    (h1 : ∀ c ∈ ds, cIsDigit c = true)
    (h2 : ∀ c r, rest = c :: r → cIsDigit c = false) :
    (digitLoop v (ds ++ rest)).2 = rest := by
  induction ds generalizing v with
  | nil =>
      cases rest with
      | nil => simp [digitLoop]
      | cons c r => simp [digitLoop, h2 c r rfl]
  | cons c ds' ih =>
      have hc : cIsDigit c = true := h1 c (by simp)
      simp only [List.cons_append, digitLoop, hc, if_true]
      exact ih (10 * v + ((c.toNat : Int) - 48))
        (fun x hx => h1 x (List.mem_cons_of_mem c hx))

/-- Auxiliary for C5: whatever the loop leaves unconsumed, what it consumed
was a block of digits. -/
lemma digitLoop_decomp (v : Int) (s : List Char) :
    ∃ ds, (∀ c ∈ ds, cIsDigit c = true) ∧ s = ds ++ (digitLoop v s).2 := by
  induction s generalizing v with
  | nil => exact ⟨[], by simp, by simp [digitLoop]⟩
  | cons c r ih =>
      by_cases hc : cIsDigit c = true
      · obtain ⟨ds, hds, hs⟩ := ih (10 * v + ((c.toNat : Int) - 48))
        refine ⟨c :: ds, ?_, ?_⟩
        · intro x hx
          rcases List.mem_cons.mp hx with h | h
          · exact h ▸ hc
          · exact hds x h
        · simp only [digitLoop, hc, if_true, List.cons_append]
          exact congrArg (List.cons c) hs
      · refine ⟨[], by simp, ?_⟩
        simp [digitLoop, hc]


/-- Auxiliary for C5: `parse_integer` with `NO_SIGN` accepts a nonempty
digit block followed by a non-digit boundary and returns exactly that
boundary as the unparsed suffix. -/
lemma parse_integer_digits (ds rest : List Char) (hne : ds ≠ [])
    (h1 : ∀ c ∈ ds, cIsDigit c = true)
    (h2 : ∀ c r, rest = c :: r → cIsDigit c = false) :
    ∃ v, parse_integer (ds ++ rest) NO_SIGN = Option.some (v, rest) := by
  cases ds with
  | nil => exact absurd rfl hne
  | cons c ds' =>
      have hc : cIsDigit c = true := h1 c (by simp)
      have hdl : (digitLoop ((c.toNat : Int) - 48) (ds' ++ rest)).2 = rest :=
        digitLoop_app _ ds' rest
          (fun x hx => h1 x (List.mem_cons_of_mem c hx)) h2
      refine ⟨(digitLoop ((c.toNat : Int) - 48) (ds' ++ rest)).1, ?_⟩
      simp [parse_integer, parse_integer_core, parse_sign, NO_SIGN, hc, hdl]

/-- Auxiliary for C5: an accepting `parse_integer` run with `NO_SIGN`
consumed a nonempty digit block. -/
lemma parse_integer_decomp (s : List Char) (v : Int) (rest : List Char)
    (h : parse_integer s NO_SIGN = Option.some (v, rest)) :
    ∃ ds, ds ≠ [] ∧ (∀ c ∈ ds, cIsDigit c = true) ∧ s = ds ++ rest := by
  cases s with
  | nil => simp [parse_integer, parse_integer_core, parse_sign, NO_SIGN] at h
  | cons c tail =>
      by_cases hc : cIsDigit c = true
      · obtain ⟨ds, hds, htail⟩ := digitLoop_decomp ((c.toNat : Int) - 48) tail
        have hrest : (digitLoop ((c.toNat : Int) - 48) tail).2 = rest := by
          simp [parse_integer, parse_integer_core, parse_sign, NO_SIGN, hc] at h
          exact congrArg Prod.snd h
        rw [hrest] at htail
        refine ⟨c :: ds, by simp, ?_, ?_⟩
        · intro x hx
          rcases List.mem_cons.mp hx with h' | h'
          · exact h' ▸ hc
          · exact hds x h'
        · simp only [List.cons_append]
          exact congrArg (List.cons c) htail
      · simp [parse_integer, parse_integer_core, parse_sign, NO_SIGN, hc] at h

/-- Auxiliary for C5: `parse_version` accepts a version text exactly when
it matches the pattern of the spec. -/
lemma parse_version_isSome_iff (s : List Char) :
    (parse_version s).isSome = true ↔ isVersionPattern s := by
  constructor
  · intro h
    cases h1 : parse_integer s NO_SIGN with
    | none => simp [parse_version, h1] at h
    | some p =>
        obtain ⟨maj, rest⟩ := p
        cases rest with
        | nil => simp [parse_version, h1] at h
        | cons c rest2 =>
            by_cases hdot : c = '.'
            · subst hdot
              cases h2 : parse_integer rest2 NO_SIGN with
              | none => simp [parse_version, h1, h2] at h
              | some q =>
                  obtain ⟨mi, rest3⟩ := q
                  cases rest3 with
                  | nil =>
                      obtain ⟨d1, hne1, hd1, hs1⟩ :=
                        parse_integer_decomp s maj ('.' :: rest2) h1
                      obtain ⟨d2, hne2, hd2, hs2⟩ :=
                        parse_integer_decomp rest2 mi [] h2
                      rw [List.append_nil] at hs2
                      subst hs2
                      exact ⟨d1, rest2, hne1, hne2, hd1, hd2, hs1⟩
                  | cons x xs => simp [parse_version, h1, h2] at h
            · simp [parse_version, h1, hdot] at h
  · rintro ⟨d1, d2, hne1, hne2, hd1, hd2, rfl⟩
    obtain ⟨v1, hv1⟩ := parse_integer_digits d1 ('.' :: d2) hne1 hd1
      (fun c r hcr => by
        injection hcr with hc hr
        subst hc
        decide)
    obtain ⟨v2, hv2⟩ := parse_integer_digits d2 [] hne2 hd2
      (fun c r hcr => nomatch hcr)
    rw [List.append_nil] at hv2
    simp [parse_version, hv1, hv2]

/-- Claim C5: `document_start_event` accepts a version text exactly when it
matches `<non-negative integer>.<non-negative integer>` with no
surrounding content and no sign; "1.1" succeeds with major 1 and minor 1,
while "1", "1.1.2", "a.b", signed texts and texts with leading or trailing
characters all fail with the version-format error. -/
theorem version_text_validation :
    (∀ s : List Char, (parse_version s).isSome = true ↔ isVersionPattern s) ∧
    parse_version ['1', '.', '1'] = Option.some (1, 1) ∧
    parse_version ['1'] = Option.none ∧
    parse_version ['1', '.', '1', '.', '2'] = Option.none ∧
    parse_version ['a', '.', 'b'] = Option.none ∧
    parse_version ['+', '1', '.', '1'] = Option.none ∧
    parse_version ['-', '1', '.', '1'] = Option.none ∧
    parse_version [' ', '1', '.', '1'] = Option.none ∧
    parse_version ['1', '.', '1', ' '] = Option.none :=
  ⟨parse_version_isSome_iff, by decide, by decide, by decide, by decide,
   by decide, by decide, by decide, by decide⟩

/-- Witness for C5: the accepted text "1.1" matches the spec's pattern. -/
theorem version_text_validation_witness :
    isVersionPattern ['1', '.', '1'] :=
  (version_text_validation.1 ['1', '.', '1']).mp (by decide)

end YamlModel
